import Mathlib

/-!
Verification development for the Ga-68 Planner's generator allocation and
assignment engine (single-file React app).

Shallow embedding conventions:
* Local wall-clock timestamps ("YYYY-MM-DDTHH:MM" strings parsed by
  `parseLocalDateTimeYYYYMMDDTHHMM` into minute-resolution JS `Date`s) are
  modelled as `ℤ` = whole minutes since the local civil epoch day 0
  (1970-01-01 00:00 local).  `minutesBetween a b = b - a` on this scale.
* Local calendar day stamps ("YYYY-MM-DD" strings) are modelled as `ℤ` civil
  day numbers (`dayOf` of a timestamp).
* JS floating-point numbers carrying physical quantities (mCi activities,
  efficiencies) are modelled as real numbers `ℝ`; `Math.exp` is `Real.exp`.
* The ambient wall clock read by `todayLocalDate()` inside the engine is made
  an explicit `today : ℤ` (day number) parameter.
* `Array.prototype.sort` (stable per ES2019) with a three-way comparator `c`
  is modelled as stable insertion sort with the Boolean relation
  `le a b ↔ c a b ≤ 0`.
-/

namespace Ga68

/-! ### Civil calendar (models JS `Date` local-time component arithmetic) -/

/-- Day count of (y, m, 1) for m ∈ [1,12] from the proleptic Gregorian
calendar, relative to 1970-01-01 = day 0 (Hinnant's `days_from_civil`,
specialized to day-of-month 1 handled by the caller). -/
def civilToDays (y m d : ℤ) : ℤ :=
  let y2 := if m ≤ 2 then y - 1 else y
  let era := y2.fdiv 400
  let yoe := y2 - era * 400
  let mp := (m + 9).fmod 12
  let doy := (153 * mp + 2).fdiv 5 + d - 1
  let doe := yoe * 365 + yoe.fdiv 4 - yoe.fdiv 100 + doy
  era * 146097 + doe - 719468

/-- Civil day number → (year, month, day) (Hinnant's `civil_from_days`). -/
def daysToCivil (z0 : ℤ) : ℤ × ℤ × ℤ :=
  let z := z0 + 719468
  let era := z.fdiv 146097
  let doe := z - era * 146097
  let yoe := (doe - doe.fdiv 1460 + doe.fdiv 36524 - doe.fdiv 146096).fdiv 365
  let y := yoe + era * 400
  let doy := doe - (365 * yoe + yoe.fdiv 4 - yoe.fdiv 100)
  let mp := (5 * doy + 2).fdiv 153
  let d := doy - (153 * mp + 2).fdiv 5 + 1
  let m := mp + (if mp < 10 then 3 else -9)
  (if m ≤ 2 then y + 1 else y, m, d)

/-- Day count of (y, m, d) with JS `Date` normalization of out-of-range
month and day-of-month components (e.g. (2025, 2, 29) rolls to 2025-03-01,
(2025, 3, 0) rolls to 2025-02-28), mirroring how `new Date(y, m-1, d, ...)`
and the `setFullYear`/`setDate` mutators resolve overflowing components. -/
def civilToDaysN (y m d : ℤ) : ℤ :=
  let y2 := y + (m - 1).fdiv 12
  let m2 := (m - 1).fmod 12 + 1
  civilToDays y2 m2 d

/-- Civil day number of a minute-resolution timestamp (its local calendar
day), i.e. the "YYYY-MM-DD" part. -/
def dayOf (t : ℤ) : ℤ := t.fdiv 1440

/-- Minute of day (0..1439) of a timestamp, i.e. the "HH:MM" part. -/
def minuteOfDay (t : ℤ) : ℤ := t.fmod 1440

/-- Timestamp built from local components, with JS `Date` normalization. -/
def mkLocalMinutes (y m d h mi : ℤ) : ℤ :=
  civilToDaysN y m d * 1440 + h * 60 + mi

/-- Two-digit zero padding (`pad2` in the source). -/
def pad2 (n : ℤ) : String := if n < 10 then "0" ++ toString n else toString n

/-- Source `formatLocal`: renders a timestamp back to "YYYY-MM-DDTHH:MM". -/
def formatLocal (t : ℤ) : String :=
  let c := daysToCivil (dayOf t)
  let md := minuteOfDay t
  toString c.1 ++ "-" ++ pad2 c.2.1 ++ "-" ++ pad2 c.2.2 ++ "T" ++
    pad2 (md.fdiv 60) ++ ":" ++ pad2 (md.fmod 60)

/-! ### Constants (source "Constants" section) -/

/-- Ga-68 half-life in minutes (`HALF_LIFE_GA_MIN = 67.71`). -/
def HALF_LIFE_GA_MIN : ℝ := 67.71

/-- Ge-68 half-life in days (`HALF_LIFE_GE_DAYS = 270.95`). -/
def HALF_LIFE_GE_DAYS : ℝ := 270.95

/-- Daughter (Ga-68) decay constant per minute (`LAMBDA_GA = ln 2 / 67.71`). -/
noncomputable def LAMBDA_GA : ℝ := Real.log 2 / HALF_LIFE_GA_MIN

/-- Parent (Ge-68) decay constant per minute
(`LAMBDA_GE = ln 2 / (270.95 * 24 * 60)`). -/
noncomputable def LAMBDA_GE : ℝ := Real.log 2 / (HALF_LIFE_GE_DAYS * 24 * 60)

/-! ### Data model (source "Types" section) -/

/-- Source `Generator` record.  `calibration_dt` and `last_eluted_dt` are the
parsed minute timestamps of the stored local datetime strings; `_wearDate` is
the civil day number of the stored "YYYY-MM-DD" stamp (optional fields keep
their optionality). -/
structure Generator where
  id : String
  activity_mCi : ℝ
  efficiency_pct : ℝ
  calibration_dt : ℤ
  last_eluted_dt : ℤ
  total_eluted_today_mCi : Option ℝ
  _wearDate : Option ℤ

/-- Source `Order` record.  `product` is one of "PSMA" | "Dotatate" |
"Research"; `assigned_elute_dt` keeps the formatted string the code stores. -/
structure Order where
  id : String
  hospitalId : String
  product : String
  requested_mCi_at_cal : ℝ
  calibration_dt : ℤ
  prep_minutes : ℤ
  travel_minutes : ℤ
  assignedGeneratorIds : Option (List String) := none
  assigned_elute_dt : Option String := none
  assigned_delta_minutes : Option (List ℤ) := none
  notes : Option String := none

/-! ### Wear normalization (source `normalizeDailyWear`) -/

/-- Source `normalizeDailyWear`: reset `total_eluted_today_mCi` and stamp
`_wearDate` when the stored wear-day differs from the supplied current local
day. -/
noncomputable def normalizeDailyWear (gens : List Generator) (dayStamp : ℤ) :
    List Generator :=
  gens.map fun g =>
    if g._wearDate ≠ some dayStamp then
      { g with total_eluted_today_mCi := some 0, _wearDate := some dayStamp }
    else g

/-! ### Expiry helpers (source "Expiry helpers" section) -/

/-- Source `generatorExpiryDate`: take the calibration datetime, add one year
to the year component (`setFullYear(getFullYear() + 1)`, with JS overflow
normalization: Feb 29 rolls to Mar 1), step back one calendar day
(`setDate(getDate() - 1)`, i.e. the previous civil day, encoded as day
number - 1), and pin the time to 23:59 (`setHours(23, 59, 0, 0)`). -/
def generatorExpiryDate (gen : Generator) : ℤ :=
  let c := daysToCivil (dayOf gen.calibration_dt)
  let d1 := civilToDaysN (c.1 + 1) c.2.1 c.2.2
  (d1 - 1) * 1440 + 23 * 60 + 59

/-- Source `isGeneratorExpired`: strictly after the expiry instant. -/
def isGeneratorExpired (gen : Generator) (eluteDt : ℤ) : Bool :=
  decide (generatorExpiryDate gen < eluteDt)

/-! ### Physics (source "Physics" section) -/

/-- Source `parentAtTime_mCi`: `A0 * exp(-LAMBDA_GE * minutesBetween(cal, t))`. -/
noncomputable def parentAtTime_mCi (gen : Generator) (eluteDt : ℤ) : ℝ :=
  gen.activity_mCi * Real.exp (-LAMBDA_GE * ((eluteDt - gen.calibration_dt : ℤ) : ℝ))

/-- The elapsed-minutes clamp in `availableAtElute_mCi`:
`dtMin = Math.max(0, minutesBetween(last, eluteDt))`. -/
def deltaSinceLast (gen : Generator) (eluteDt : ℤ) : ℤ :=
  max 0 (eluteDt - gen.last_eluted_dt)

/-- The lock-window eligibility test inside `availableAtElute_mCi`:
`eligibleLock = dtMin >= minLockMinutes`. -/
def lockOk (gen : Generator) (eluteDt : ℤ) (minLockMinutes : ℤ) : Bool :=
  decide (minLockMinutes ≤ deltaSinceLast gen eluteDt)

/-- Result record of `availableAtElute_mCi`. -/
structure AvailResult where
  available : ℝ
  eligible : Bool
  reason : Option String
  deltaSinceLastMin : ℤ

/-- Source `availableAtElute_mCi`: elapsed minutes since last elution clamped
at 0; daughter in-growth availability `parent * efficiency * (1 - exp(-LAMBDA_GA * dtMin))`;
eligibility = lock satisfied and not expired; human-readable reason.  The
source's `Math.ceil` on the remaining lock minutes is the identity here since
both operands are whole minutes. -/
noncomputable def availableAtElute_mCi (gen : Generator) (eluteDt : ℤ)
    (minLockMinutes : ℤ) : AvailResult :=
  let dtMin := deltaSinceLast gen eluteDt
  let eligibleLock := lockOk gen eluteDt minLockMinutes
  let expired := isGeneratorExpired gen eluteDt
  let parent := parentAtTime_mCi gen eluteDt
  let efficiency := gen.efficiency_pct / 100
  let available := parent * efficiency * (1 - Real.exp (-LAMBDA_GA * (dtMin : ℝ)))
  let remaining := minLockMinutes - dtMin
  { available := available
    eligible := eligibleLock && !expired
    reason :=
      if expired then some "Expired"
      else if eligibleLock then none
      else some ("Lock: needs " ++ toString remaining ++ " more min")
    deltaSinceLastMin := dtMin }

/-- Source `requiredAtElute_mCi`: elute `prep + travel` minutes before the
calibration deadline; required activity reverses daughter decay over that
lead time: `requested * exp(+LAMBDA_GA * deltaMinutes)`.  Returns
(required, eluteDt). -/
noncomputable def requiredAtElute_mCi (o : Order) : ℝ × ℤ :=
  let deltaMinutes := o.prep_minutes + o.travel_minutes
  let eluteDt := o.calibration_dt - deltaMinutes
  let required := o.requested_mCi_at_cal * Real.exp (LAMBDA_GA * (deltaMinutes : ℝ))
  (required, eluteDt)

/-! ### Stable sort (models ES2019 stable `Array.prototype.sort`) -/

/-- Insert `x` before the first element `y` with `le x y` (stable insertion:
on ties the earlier-input element stays first, as in a stable comparator
sort). -/
def insertSorted {α : Type} (le : α → α → Bool) (x : α) : List α → List α
  | [] => [x]
  | y :: ys => if le x y then x :: y :: ys else y :: insertSorted le x ys

/-- Stable insertion sort with Boolean relation `le a b ↔ comparator a b ≤ 0`.
For a total transitive `le` this produces the unique stable sorted
rearrangement, hence coincides with ES2019 `Array.prototype.sort`. -/
def insertionSort {α : Type} (le : α → α → Bool) : List α → List α
  | [] => []
  | x :: xs => insertSorted le x (insertionSort le xs)

/-! ### Candidate evaluation and ranking (shared shape of both policies) -/

/-- The per-generator candidate record both policies build for each order. -/
structure Candidate where
  gen : Generator
  available : ℝ
  eligible : Bool
  reason : Option String
  deltaSinceLastMin : ℤ
  efficiency : ℝ
  parentAtElute : ℝ
  wear : ℝ

/-- The candidate ranking comparator of both policies, as the Boolean
relation `candLE a b ↔ comparator(a, b) ≤ 0`: efficiency desc, then
available desc, then elapsed-since-last desc, then wear asc, then id asc
(`localeCompare` modelled as code-point order; ids are ASCII). -/
noncomputable def candLE (a b : Candidate) : Bool :=
  if a.efficiency ≠ b.efficiency then decide (b.efficiency < a.efficiency)
  else if a.available ≠ b.available then decide (b.available < a.available)
  else if a.deltaSinceLastMin ≠ b.deltaSinceLastMin then
    decide (b.deltaSinceLastMin < a.deltaSinceLastMin)
  else if a.wear ≠ b.wear then decide (a.wear < b.wear)
  else decide (a.gen.id ≤ b.gen.id)

/-- The order-batch comparator of both policies (ascending calibration
time). -/
def ordLE (a b : Order) : Bool := decide (a.calibration_dt ≤ b.calibration_dt)

/-- Standard-policy candidate for one generator (the object literal built in
`assignOrdersEfficient`'s `gens.map`). -/
noncomputable def mkCandidate (g : Generator) (eluteDt : ℤ)
    (minLockMinutes : ℤ) : Candidate :=
  let avail := availableAtElute_mCi g eluteDt minLockMinutes
  { gen := g
    available := avail.available
    eligible := avail.eligible
    reason := avail.reason
    deltaSinceLastMin := avail.deltaSinceLastMin
    efficiency := g.efficiency_pct
    parentAtElute := parentAtTime_mCi g eluteDt
    wear := g.total_eluted_today_mCi.getD 0 }

/-- The `bestCombo` record of the pairwise search. -/
structure Combo where
  ids : List String
  totalAvailable : ℝ
  deltas : List ℤ

/-- All unordered pairs (i, j) with i < j, in the nested-loop iteration
order of the source's pairwise combination search. -/
def pairsInOrder {α : Type} : List α → List (α × α)
  | [] => []
  | x :: xs => xs.map (fun y => (x, y)) ++ pairsInOrder xs

/-- The pairwise combination search: keep the pair with `total >= required`
whose total available is strictly greater than the best so far (first
maximal pair in iteration order wins). -/
noncomputable def bestComboSearch (required : ℝ) (elig : List Candidate) :
    Option Combo :=
  (pairsInOrder elig).foldl
    (fun best p =>
      let total := p.1.available + p.2.available
      if required ≤ total then
        let combo : Combo :=
          { ids := [p.1.gen.id, p.2.gen.id]
            totalAvailable := total
            deltas := [p.1.deltaSinceLastMin, p.2.deltaSinceLastMin] }
        match best with
        | none => some combo
        | some b => if b.totalAvailable < total then some combo else best
      else best)
    none

/-- Number formatting of `required.toFixed(2)` in notes: round to the
nearest hundredth and print with two decimals (binary-double digit edge
cases of `toFixed` idealized to exact rounding). -/
noncomputable def toFixed2 (x : ℝ) : String :=
  let n : ℤ := round (x * 100)
  let sign := if n < 0 then "-" else ""
  let m := n.natAbs
  sign ++ toString (m / 100) ++ "." ++ pad2 ((m % 100 : ℕ) : ℤ)

/-- The assignment-selection block shared verbatim by both policies: for
"PSMA", first the best-ranked single candidate with `available >= required`,
else the pairwise search; for other products single-generator only.
Returns (assigned ids, assigned deltas, note). -/
noncomputable def selectAssignment (product : String) (required : ℝ)
    (elig : List Candidate) : List String × List ℤ × String :=
  if product = "PSMA" then
    match elig.find? (fun c => decide (required ≤ c.available)) with
    | some s => ([s.gen.id], [s.deltaSinceLastMin], "Single generator " ++ s.gen.id)
    | none =>
      match bestComboSearch required elig with
      | some b => (b.ids, b.deltas,
          "Combined generators " ++ String.intercalate " + " b.ids)
      | none => ([], [], "")
  else
    match elig.find? (fun c => decide (required ≤ c.available)) with
    | some s => ([s.gen.id], [s.deltaSinceLastMin], "Single generator " ++ s.gen.id)
    | none => ([], [], "")

/-! ### Standard (Live) assignment policy (source `assignOrdersEfficient`) -/

/-- One iteration of `assignOrdersEfficient`'s `for (const ord of sorted)`
loop: evaluates candidates against the current generator working state,
selects an assignment, and (only on success) updates the assigned
generators' `last_eluted_dt` (the stored `formatLocal(eluteDt)` string
re-parses to `eluteDt` at minute resolution), wear and `_wearDate`.
Generator ids are unique (IndexedDB keyPath "id"), so updating by id
matches the source's mutation through the `byId` alias map. -/
noncomputable def processOrderStd (minLockMinutes today : ℤ)
    (gens : List Generator) (ord : Order) :
    List Generator × Order × String :=
  let rq := requiredAtElute_mCi ord
  let required := rq.1
  let eluteDt := rq.2
  let candidates := gens.map (fun g => mkCandidate g eluteDt minLockMinutes)
  let elig := insertionSort candLE (candidates.filter (·.eligible))
  let sel := selectAssignment ord.product required elig
  let assigned := sel.1
  let assignedDelta := sel.2.1
  let note := sel.2.2
  let oCopy0 : Order := { ord with assigned_elute_dt := some (formatLocal eluteDt) }
  if assigned ≠ [] then
    let perGenShare := required / (assigned.length : ℝ)
    let gens2 := gens.map fun g =>
      if assigned.contains g.id then
        { g with last_eluted_dt := eluteDt
                 total_eluted_today_mCi := some (g.total_eluted_today_mCi.getD 0 + perGenShare)
                 _wearDate := some today }
      else g
    (gens2,
     { oCopy0 with
        assignedGeneratorIds := some assigned
        assigned_delta_minutes := some assignedDelta
        notes := some (note ++ "; required @ elute " ++ toFixed2 required ++ " mCi") },
     "Order " ++ ord.id ++ ": assigned " ++ String.intercalate ", " assigned ++
       " at " ++ formatLocal eluteDt)
  else
    (gens,
     { oCopy0 with
        assignedGeneratorIds := some []
        assigned_delta_minutes := some []
        notes := some ("Insufficient availability. Required @ elute " ++
          toFixed2 required ++ " mCi.") },
     "Order " ++ ord.id ++ ": unmet; insufficient availability.")

/-- The sequential pass over the sorted order batch, threading the mutated
generator working state forward. -/
noncomputable def assignLoopStd (minLockMinutes today : ℤ) :
    List Generator → List Order → List Generator × List Order × List String
  | gens, [] => (gens, [], [])
  | gens, ord :: rest =>
    let step := processOrderStd minLockMinutes today gens ord
    let r := assignLoopStd minLockMinutes today step.1 rest
    (r.1, step.2.1 :: r.2.1, step.2.2 :: r.2.2)

/-- Result record `{ orders, messages }` of both policies. -/
structure AssignResult where
  orders : List Order
  messages : List String

/-- Source `assignOrdersEfficient`: copy the generator pool (value
semantics — the caller's array elements are never mutated), sort orders by
ascending calibration time, process them sequentially.  Only
`{ orders, messages }` is returned; the mutated working copies are local
to the call and dropped.  `today` is the explicit current-local-day input
of the source's ambient `todayLocalDate()`. -/
noncomputable def assignOrdersEfficient (orders : List Order)
    (generators : List Generator) (minLockMinutes today : ℤ) : AssignResult :=
  let gens := generators
  let sorted := insertionSort ordLE orders
  let r := assignLoopStd minLockMinutes today gens sorted
  { orders := r.2.1, messages := r.2.2 }

/-! ### Simulation ("What-If") assignment policy
(source `assignOrdersEfficientSim`) -/

/-- Options record of the simulation policy. -/
structure SimOptions where
  minLockMinutes : ℤ
  respectLock : Bool
  treatFirstUseMax : Bool
  firstUseIgnoresLock : Option Bool

/-- Simulation candidate for one generator: expired generators are summarily
ineligible; otherwise the baseline availability uses the lock window only
when `respectLock`; on a generator's first use in the run (when
`treatFirstUseMax`), availability is overridden to the theoretical maximum
`parent * efficiency` and the lock is bypassed unless
`firstUseIgnoresLock` (default true) is disabled. -/
noncomputable def mkCandidateSim (opts : SimOptions) (usedFirst : List String)
    (g : Generator) (eluteDt : ℤ) : Candidate :=
  if isGeneratorExpired g eluteDt then
    { gen := g, available := 0, eligible := false, reason := some "Expired",
      deltaSinceLastMin := 0, efficiency := g.efficiency_pct,
      parentAtElute := parentAtTime_mCi g eluteDt,
      wear := g.total_eluted_today_mCi.getD 0 }
  else
    let baseline := availableAtElute_mCi g eluteDt
      (if opts.respectLock then opts.minLockMinutes else 0)
    let ignoreLockOnFirst := opts.firstUseIgnoresLock.getD true
    let firstUse := opts.treatFirstUseMax && !(usedFirst.contains g.id)
    let available :=
      if firstUse then parentAtTime_mCi g eluteDt * (g.efficiency_pct / 100)
      else baseline.available
    let eligible :=
      if firstUse then
        !isGeneratorExpired g eluteDt &&
          (if ignoreLockOnFirst then true
           else if opts.respectLock then baseline.eligible else true)
      else baseline.eligible || !opts.respectLock
    { gen := g, available := available, eligible := eligible, reason := none,
      deltaSinceLastMin := baseline.deltaSinceLastMin,
      efficiency := g.efficiency_pct,
      parentAtElute := parentAtTime_mCi g eluteDt,
      wear := g.total_eluted_today_mCi.getD 0 }

/-- `Set.add` on the simulation's `usedFirst` set of generator ids. -/
def addUsed (s : List String) (x : String) : List String :=
  if s.contains x then s else x :: s

/-- One iteration of the simulation loop.  The generator list `gens` is the
run's fixed pool of copies: the simulation records first use in `usedFirst`
but never writes `last_eluted_dt`/wear back to its copies.  Returns the
updated `usedFirst`, the annotated order, and the audit message. -/
noncomputable def processOrderSim (opts : SimOptions) (gens : List Generator)
    (usedFirst : List String) (ord : Order) : List String × Order × String :=
  let rq := requiredAtElute_mCi ord
  let required := rq.1
  let eluteDt := rq.2
  let candidates := gens.map (fun g => mkCandidateSim opts usedFirst g eluteDt)
  let elig := insertionSort candLE (candidates.filter (·.eligible))
  let sel := selectAssignment ord.product required elig
  let assigned := sel.1
  let assignedDelta := sel.2.1
  let note := sel.2.2
  let oCopy0 : Order := { ord with assigned_elute_dt := some (formatLocal eluteDt) }
  if assigned ≠ [] then
    let u1 := addUsed usedFirst (assigned.headD "")
    let u2 := if assigned.length = 2 then addUsed u1 (assigned.getD 1 "") else u1
    (u2,
     { oCopy0 with
        assignedGeneratorIds := some assigned
        assigned_delta_minutes := some assignedDelta
        notes := some (note ++ "; required @ elute " ++ toFixed2 required ++
          " mCi (simulation)") },
     "Sim " ++ ord.id ++ ": assigned " ++ String.intercalate ", " assigned ++
       " at " ++ formatLocal eluteDt)
  else
    (usedFirst,
     { oCopy0 with
        assignedGeneratorIds := some []
        assigned_delta_minutes := some []
        notes := some ("Unmet (simulation). Required @ elute " ++
          toFixed2 required ++ " mCi.") },
     "Sim " ++ ord.id ++ ": unmet.")

/-- The sequential simulation pass, threading only `usedFirst`. -/
noncomputable def assignLoopSim (opts : SimOptions) (gens : List Generator) :
    List String → List Order → List String × List Order × List String
  | used, [] => (used, [], [])
  | used, ord :: rest =>
    let step := processOrderSim opts gens used ord
    let r := assignLoopSim opts gens step.1 rest
    (r.1, step.2.1 :: r.2.1, step.2.2 :: r.2.2)

/-- Source `assignOrdersEfficientSim`. -/
noncomputable def assignOrdersEfficientSim (orders : List Order)
    (generators : List Generator) (opts : SimOptions) : AssignResult :=
  let gens := generators
  let sorted := insertionSort ordLE orders
  let r := assignLoopSim opts gens [] sorted
  { orders := r.2.1, messages := r.2.2 }

/-! ### Rescan/Reconciliation driver (source `runRescan`) -/

/-- Result of `runRescan`: the reassigned orders and `updatedById`, the
generator map handed to the atomic write-back
(`Object.fromEntries(baselineGens.map(g => [g.id, g]))`, kept as the
underlying list). -/
structure RescanResult where
  orders : List Order
  updatedById : List Generator

/-- `Record` lookup in `updatedById` (`Object.fromEntries`: on duplicate
keys the later entry wins). -/
def byIdLookup (gens : List Generator) (gid : String) : Option Generator :=
  (gens.filter (fun g => decide (g.id = gid))).getLast?

/-- Source `runRescan`: normalize daily wear onto fresh copies, run the
standard policy, and return the reassigned orders together with
`updatedById` built from `baselineGens`.  Note `assignOrdersEfficient`
immediately re-copies its generator argument and mutates only those inner
copies, which it does not return — so `baselineGens` (and hence
`updatedById`) carries the daily-wear normalization but no assignment
effects. -/
noncomputable def runRescan (currentOrders : List Order)
    (currentGenerators : List Generator) (minLockMinutes today : ℤ) :
    RescanResult :=
  let baselineGens := normalizeDailyWear currentGenerators today
  let res := assignOrdersEfficient currentOrders baselineGens minLockMinutes today
  { orders := res.orders, updatedById := baselineGens }

/-! ### Spec-side formalization (for the expiry-boundary refinement claim) -/

/-- The spec's expiry elute-time "D + 1 year − 1 day, at 23:59" for a
calibration day `calDay`: one calendar year later (a Feb 29 anniversary
resolves to Mar 1, the civil normalization JS `Date` also uses), minus one
civil day, at minute 23:59 of that day.  Stated independently of
`generatorExpiryDate` so the two can be compared. -/
def specExpiryEluteTime (calDay : ℤ) : ℤ :=
  let c := daysToCivil calDay
  let plusOneYear := civilToDaysN (c.1 + 1) c.2.1 c.2.2
  let minusOneDay := plusOneYear - 1
  minusOneDay * 1440 + 23 * 60 + 59

/-! ### Projections used by the batch-ordering statements -/

/-- The input-side fields of an order (everything the Assignment Engine
reads, none of what it writes). -/
def coreOf (o : Order) : String × String × String × ℝ × ℤ × ℤ × ℤ :=
  (o.id, o.hospitalId, o.product, o.requested_mCi_at_cal, o.calibration_dt,
   o.prep_minutes, o.travel_minutes)

/-- Calibration time of an order. -/
def calOf (o : Order) : ℤ := o.calibration_dt

/-! ### Concrete scenario inputs used by the boundary and divergence
theorems -/

/-- A healthy generator: 50 mCi, 60 % efficiency, calibrated and last eluted
at local epoch minute 0, zero wear stamped for day 0 (the spec's end-to-end
scenario generator). -/
noncomputable def genA : Generator :=
  { id := "G1", activity_mCi := 50, efficiency_pct := 60,
    calibration_dt := 0, last_eluted_dt := 0,
    total_eluted_today_mCi := some 0, _wearDate := some 0 }

/-- A unit generator (1 mCi, 100 % efficiency, calibrated/eluted at 0) used
for the availability-monotonicity analysis. -/
noncomputable def genUnit : Generator :=
  { id := "G1", activity_mCi := 1, efficiency_pct := 100,
    calibration_dt := 0, last_eluted_dt := 0,
    total_eluted_today_mCi := some 0, _wearDate := some 0 }

/-- A generator record with negative parent activity (rejected by the
generator form's validation, but accepted unvalidated by bundle import). -/
noncomputable def genNeg : Generator :=
  { id := "G1", activity_mCi := -1, efficiency_pct := 100,
    calibration_dt := 0, last_eluted_dt := 0,
    total_eluted_today_mCi := some 0, _wearDate := some 0 }

/-- The spec's end-to-end PSMA order: 5 mCi requested at calibration
`T0+180 min`, 15 min prep + 15 min travel, so elution at `T0+150 min`. -/
noncomputable def ordPSMA : Order :=
  { id := "O1", hospitalId := "H1", product := "PSMA",
    requested_mCi_at_cal := 5, calibration_dt := 180,
    prep_minutes := 15, travel_minutes := 15 }

/-- A zero-activity single-source order calibrated at minute 100 (simulation
scenario, first of two). -/
noncomputable def ordSim1 : Order :=
  { id := "O1", hospitalId := "H1", product := "Dotatate",
    requested_mCi_at_cal := 0, calibration_dt := 100,
    prep_minutes := 0, travel_minutes := 0 }

/-- A zero-activity single-source order calibrated at minute 200 (simulation
scenario, second of two). -/
noncomputable def ordSim2 : Order :=
  { id := "O2", hospitalId := "H1", product := "Dotatate",
    requested_mCi_at_cal := 0, calibration_dt := 200,
    prep_minutes := 0, travel_minutes := 0 }

/-- Simulation options with the lock respected (window 0) and no first-use
maximum override. -/
def optsPlain : SimOptions :=
  { minLockMinutes := 0, respectLock := true, treatFirstUseMax := false,
    firstUseIgnoresLock := none }

/-! ## Helper lemmas -/

theorem LAMBDA_GA_pos : 0 < LAMBDA_GA := by
  unfold LAMBDA_GA HALF_LIFE_GA_MIN
  exact div_pos (Real.log_pos (by norm_num)) (by norm_num)

theorem LAMBDA_GE_pos : 0 < LAMBDA_GE := by
  unfold LAMBDA_GE HALF_LIFE_GE_DAYS
  exact div_pos (Real.log_pos (by norm_num)) (by norm_num)

theorem exp_neg_lambda_le_one {d : ℝ} (hd : 0 ≤ d) :
    Real.exp (-LAMBDA_GA * d) ≤ 1 := by
  rw [Real.exp_le_one_iff]
  have := LAMBDA_GA_pos
  nlinarith

theorem available_nonneg (gen : Generator) (e L : ℤ)
    (hA : 0 ≤ gen.activity_mCi) (hE : 0 ≤ gen.efficiency_pct) :
    0 ≤ (availableAtElute_mCi gen e L).available := by
  simp only [availableAtElute_mCi]
  have hdt : (0 : ℝ) ≤ ((deltaSinceLast gen e : ℤ) : ℝ) := by
    have : (0 : ℤ) ≤ deltaSinceLast gen e := le_max_left _ _
    exact_mod_cast this
  have h1 : Real.exp (-LAMBDA_GA * ((deltaSinceLast gen e : ℤ) : ℝ)) ≤ 1 :=
    exp_neg_lambda_le_one hdt
  have hpar : 0 ≤ parentAtTime_mCi gen e :=
    mul_nonneg hA (Real.exp_pos _).le
  have heff : (0 : ℝ) ≤ gen.efficiency_pct / 100 := by linarith
  exact mul_nonneg (mul_nonneg hpar heff) (by linarith)

/-! ## C8 — required-at-elution round trip -/

/-- C8: for every order, the required activity at elution decayed back over
the lead time (`prep_minutes + travel_minutes`) equals the requested
activity at calibration — `requiredAtElute_mCi` inverts the forward decay
formula exactly (exact in the real-number model of float arithmetic). -/
theorem requiredAtElute_roundTrip : ∀ o : Order,
    (requiredAtElute_mCi o).1 *
      Real.exp (-LAMBDA_GA * ((o.prep_minutes + o.travel_minutes : ℤ) : ℝ)) =
    o.requested_mCi_at_cal := by
  intro o
  simp only [requiredAtElute_mCi]
  rw [mul_assoc, ← Real.exp_add,
    show LAMBDA_GA * ((o.prep_minutes + o.travel_minutes : ℤ) : ℝ) +
        -LAMBDA_GA * ((o.prep_minutes + o.travel_minutes : ℤ) : ℝ) = 0 from by ring,
    Real.exp_zero, mul_one]

/-! ## C4 — lock-window boundary -/

/-- C4 (amended: the lock window must be positive): for every generator last
eluted at `t0` and every positive lock window `L`, the lock eligibility
computed inside `availableAtElute_mCi` is false at every elute time strictly
before `t0 + L` and true at or after `t0 + L`; and the composite eligibility
of `availableAtElute_mCi` is exactly lock-eligibility AND not-expired. -/
theorem lockOk_window_boundary : ∀ (gen : Generator) (L t : ℤ), 0 < L →
    ((t < gen.last_eluted_dt + L → lockOk gen t L = false) ∧
     (gen.last_eluted_dt + L ≤ t → lockOk gen t L = true)) ∧
    (availableAtElute_mCi gen t L).eligible =
      (lockOk gen t L && !isGeneratorExpired gen t) := by
  intro gen L t _
  refine ⟨⟨fun h => ?_, fun h => ?_⟩, rfl⟩
  · simp only [lockOk, deltaSinceLast, decide_eq_false_iff_not, not_le]
    omega
  · simp only [lockOk, deltaSinceLast, decide_eq_true_eq]
    omega

/-- Witness for `lockOk_window_boundary` at `L = 20`, `t0 = 0`, `t = 10`. -/
theorem lockOk_window_boundary_witness :
    (0 : ℤ) < 20 ∧ (10 : ℤ) < genA.last_eluted_dt + 20 ∧
    lockOk genA 10 20 = false ∧ lockOk genA 30 20 = true := by
  refine ⟨by norm_num, by decide, ?_, ?_⟩
  · exact ((lockOk_window_boundary genA 20 10 (by norm_num)).1).1 (by decide)
  · exact ((lockOk_window_boundary genA 20 30 (by norm_num)).1).2 (by decide)

/-- Counterexample to C4 as stated (universal over every lock window `L`):
with `L = 0` and a generator last eluted at minute 0, the elute time `-5` is
strictly before `t0 + L = 0`, yet the lock eligibility is true (the clamped
elapsed time 0 already meets a zero-length window). -/
theorem lockOk_zero_window_cex :
    (-5 : ℤ) < genA.last_eluted_dt + 0 ∧ lockOk genA (-5) 0 = true := by
  exact ⟨by decide, by decide⟩

/-! ## C10 — elapsed-time clamping and non-negative availability -/

/-- C10 (amended: non-negativity additionally needs non-negative stored
activity and efficiency, which the generator form validates but the bundle
importer does not): at or before the last elution, the elapsed minutes are
clamped to 0 and the available activity is exactly 0; and whenever
`activity_mCi ≥ 0` and `efficiency_pct ≥ 0` the available activity is
non-negative at every elute time. -/
theorem availableAtElute_clamped_nonneg : ∀ (gen : Generator) (eluteDt L : ℤ),
    (eluteDt ≤ gen.last_eluted_dt →
      (availableAtElute_mCi gen eluteDt L).deltaSinceLastMin = 0 ∧
      (availableAtElute_mCi gen eluteDt L).available = 0) ∧
    (0 ≤ gen.activity_mCi → 0 ≤ gen.efficiency_pct →
      0 ≤ (availableAtElute_mCi gen eluteDt L).available) := by
  intro gen e L
  constructor
  · intro h
    have h0 : deltaSinceLast gen e = 0 := by
      simp only [deltaSinceLast]
      omega
    constructor
    · simp [availableAtElute_mCi, h0]
    · simp [availableAtElute_mCi, h0]
  · intro hA hE
    exact available_nonneg gen e L hA hE

/-- Witness for `availableAtElute_clamped_nonneg` on `genA` with elute times
0 (at the last elution) and 7 (after it). -/
theorem availableAtElute_clamped_nonneg_witness :
    (availableAtElute_mCi genA 0 5).deltaSinceLastMin = 0 ∧
    (availableAtElute_mCi genA 0 5).available = 0 ∧
    0 ≤ (availableAtElute_mCi genA 7 5).available := by
  refine ⟨?_, ?_, ?_⟩
  · exact ((availableAtElute_clamped_nonneg genA 0 5).1 (by decide)).1
  · exact ((availableAtElute_clamped_nonneg genA 0 5).1 (by decide)).2
  · exact (availableAtElute_clamped_nonneg genA 7 5).2 (by norm_num [genA])
      (by norm_num [genA])

/-- Counterexample to C10's unconditional "never negative for all inputs":
a generator record with `activity_mCi = -1` (importable unvalidated) yields
strictly negative available activity one minute after its last elution. -/
theorem availableAtElute_negative_cex :
    (availableAtElute_mCi genNeg 1 0).available < 0 := by
  have h1 : Real.exp (-LAMBDA_GA) < 1 := by
    rw [Real.exp_lt_one_iff]
    have := LAMBDA_GA_pos
    linarith
  have h2 : (0 : ℝ) < Real.exp (-LAMBDA_GE) := Real.exp_pos _
  have h3 : (0 : ℝ) < Real.exp (-LAMBDA_GE) * (1 - Real.exp (-LAMBDA_GA)) :=
    mul_pos h2 (by linarith)
  simp only [availableAtElute_mCi, genNeg, parentAtTime_mCi, deltaSinceLast]
  norm_num
  linarith

/-! ## C5 — expiry boundary -/

/-- C5: for every generator calibrated on local day `D`, the elute time
"D + 1 year − 1 day, at 23:59" (the spec-side `specExpiryEluteTime`, equal
to the code's `generatorExpiryDate`) is not expired, one minute later is
expired, and an expired generator is ineligible in both the standard and
the simulation candidate evaluation. -/
theorem generatorExpiry_boundary : ∀ gen : Generator,
    specExpiryEluteTime (dayOf gen.calibration_dt) = generatorExpiryDate gen ∧
    isGeneratorExpired gen (specExpiryEluteTime (dayOf gen.calibration_dt)) = false ∧
    isGeneratorExpired gen (specExpiryEluteTime (dayOf gen.calibration_dt) + 1) = true ∧
    (∀ (t L : ℤ), isGeneratorExpired gen t = true →
      (availableAtElute_mCi gen t L).eligible = false) ∧
    (∀ (t : ℤ) (opts : SimOptions) (used : List String),
      isGeneratorExpired gen t = true →
      (mkCandidateSim opts used gen t).eligible = false) := by
  intro gen
  have hEq : specExpiryEluteTime (dayOf gen.calibration_dt) =
      generatorExpiryDate gen := rfl
  refine ⟨hEq, ?_, ?_, ?_, ?_⟩
  · rw [hEq]
    simp [isGeneratorExpired]
  · rw [hEq]
    simp [isGeneratorExpired]
  · intro t L h
    simp [availableAtElute_mCi, h]
  · intro t opts used h
    simp [mkCandidateSim, h]

/-- Witness for `generatorExpiry_boundary`: `genA` (calibrated at minute 0,
so expiring at minute 525599 = 1970-12-31T23:59) is expired at minute
525600 and therefore ineligible in both policies there. -/
theorem generatorExpiry_boundary_witness :
    isGeneratorExpired genA 525600 = true ∧
    (availableAtElute_mCi genA 525600 20).eligible = false ∧
    (mkCandidateSim optsPlain [] genA 525600).eligible = false := by
  refine ⟨by decide, ?_, ?_⟩
  · exact (generatorExpiry_boundary genA).2.2.2.1 525600 20 (by decide)
  · exact (generatorExpiry_boundary genA).2.2.2.2 525600 optsPlain [] (by decide)

/-! ## C9 — determinism of the standard policy -/

/-- C9: the standard policy is a pure function of (orders, generators,
minLockMinutes) and the current local day — two runs on identical inputs
under the same day yield identical orders (assigned ids, elute times,
deltas, notes) and identical audit messages.  The source's only ambient
input, `todayLocalDate()`, is the explicit `today` parameter here. -/
theorem assignOrdersEfficient_deterministic :
    ∀ (orders1 orders2 : List Order) (gens1 gens2 : List Generator)
      (L1 L2 d1 d2 : ℤ),
    orders1 = orders2 → gens1 = gens2 → L1 = L2 → d1 = d2 →
    assignOrdersEfficient orders1 gens1 L1 d1 =
      assignOrdersEfficient orders2 gens2 L2 d2 := by
  intro o1 o2 g1 g2 L1 L2 d1 d2 ho hg hL hd
  rw [ho, hg, hL, hd]

/-- Witness for `assignOrdersEfficient_deterministic` on concrete inputs. -/
theorem assignOrdersEfficient_deterministic_witness :
    assignOrdersEfficient [ordPSMA] [genA] 20 0 =
      assignOrdersEfficient [ordPSMA] [genA] 20 0 :=
  assignOrdersEfficient_deterministic [ordPSMA] [ordPSMA] [genA] [genA]
    20 20 0 0 rfl rfl rfl rfl

/-! ## C3 — availability monotonicity in elute time -/

/-- Counterexample to C3 as stated: availability is NOT non-decreasing in
the elute time.  For the unit generator (calibrated/last eluted at 0), the
available activity at one parent half-life (390168 min) exceeds the
available activity at three parent half-lives (1170504 min): once in-growth
has saturated, availability decays at the parent rate. -/
theorem availableAtElute_not_monotone_cex :
    (390168 : ℤ) < 1170504 ∧
    (availableAtElute_mCi genUnit 1170504 0).available <
      (availableAtElute_mCi genUnit 390168 0).available := by
  refine ⟨by norm_num, ?_⟩
  have hden : HALF_LIFE_GE_DAYS * 24 * 60 = (390168 : ℝ) := by
    norm_num [HALF_LIFE_GE_DAYS]
  have hlog : (0 : ℝ) < Real.log 2 := Real.log_pos (by norm_num)
  have hGE1 : LAMBDA_GE * 390168 = Real.log 2 := by
    rw [LAMBDA_GE, hden]
    field_simp
  have hGE3 : LAMBDA_GE * 1170504 = 3 * Real.log 2 := by
    rw [LAMBDA_GE, hden]
    field_simp
    ring
  have hexp2 : Real.exp (Real.log 2) = 2 := Real.exp_log (by norm_num)
  have ea : Real.exp (-(LAMBDA_GE * 390168)) = 1 / 2 := by
    rw [hGE1, Real.exp_neg, hexp2]
    norm_num
  have eb : Real.exp (-(LAMBDA_GE * 1170504)) = 1 / 8 := by
    rw [hGE3, Real.exp_neg,
      show (3 : ℝ) * Real.log 2 = Real.log 2 + Real.log 2 + Real.log 2 from by ring,
      Real.exp_add, Real.exp_add, hexp2]
    norm_num
  have hga1 : Real.exp (-(LAMBDA_GA * 390168)) < 1 / 2 := by
    have hlt : Real.log 2 < LAMBDA_GA * 390168 := by
      rw [LAMBDA_GA, HALF_LIFE_GA_MIN, div_mul_eq_mul_div,
        lt_div_iff₀ (by norm_num : (0 : ℝ) < 67.71)]
      nlinarith
    calc Real.exp (-(LAMBDA_GA * 390168)) < Real.exp (-Real.log 2) :=
          Real.exp_lt_exp.mpr (by linarith)
      _ = 1 / 2 := by rw [Real.exp_neg, hexp2]; norm_num
  have hga2 : (0 : ℝ) < Real.exp (-(LAMBDA_GA * 1170504)) := Real.exp_pos _
  simp only [availableAtElute_mCi, genUnit, parentAtTime_mCi, deltaSinceLast]
  norm_num
  rw [ea, eb]
  nlinarith [hga1, hga2]

/-- C3 (amended): availability is NOT monotone in absolute terms; what is
monotone is the in-growth fraction.  For every generator with positive
activity and efficiency:
(a) cross-multiplied strict monotonicity — past the last elution,
`available(t) / parent(t)` strictly increases in `t`;
(b) availability always stays strictly below the ceiling
`parent(t) * efficiency` it approaches;
(c) the deficit `parent(t) * efficiency − available(t)` tends to 0 as the
elute time goes to infinity. -/
theorem availableAtElute_ingrowth_monotone : ∀ gen : Generator,
    0 < gen.activity_mCi → 0 < gen.efficiency_pct →
    (∀ t1 t2 : ℤ, gen.last_eluted_dt ≤ t1 → t1 < t2 →
        (availableAtElute_mCi gen t1 0).available * parentAtTime_mCi gen t2 <
          (availableAtElute_mCi gen t2 0).available * parentAtTime_mCi gen t1) ∧
    (∀ t : ℤ, (availableAtElute_mCi gen t 0).available <
        parentAtTime_mCi gen t * (gen.efficiency_pct / 100)) ∧
    Filter.Tendsto
      (fun t : ℤ => parentAtTime_mCi gen t * (gen.efficiency_pct / 100) -
        (availableAtElute_mCi gen t 0).available)
      Filter.atTop (nhds 0) := by
  intro gen hA hE
  have hEpos : (0 : ℝ) < gen.efficiency_pct / 100 := by linarith
  have hPpos : ∀ t : ℤ, 0 < parentAtTime_mCi gen t := fun t =>
    mul_pos hA (Real.exp_pos _)
  refine ⟨?_, ?_, ?_⟩
  · intro t1 t2 h1 h12
    have hd1 : deltaSinceLast gen t1 = t1 - gen.last_eluted_dt := by
      simp only [deltaSinceLast]
      omega
    have hd2 : deltaSinceLast gen t2 = t2 - gen.last_eluted_dt := by
      simp only [deltaSinceLast]
      omega
    have hF : Real.exp (-LAMBDA_GA * ((deltaSinceLast gen t2 : ℤ) : ℝ)) <
        Real.exp (-LAMBDA_GA * ((deltaSinceLast gen t1 : ℤ) : ℝ)) := by
      apply Real.exp_lt_exp.mpr
      have hlga := LAMBDA_GA_pos
      have hcast : ((deltaSinceLast gen t1 : ℤ) : ℝ) <
          ((deltaSinceLast gen t2 : ℤ) : ℝ) := by
        rw [hd1, hd2]
        exact_mod_cast (by omega :
          t1 - gen.last_eluted_dt < t2 - gen.last_eluted_dt)
      nlinarith
    have key := mul_lt_mul_of_pos_left (sub_lt_sub_left hF 1)
      (mul_pos (mul_pos (hPpos t1) (hPpos t2)) hEpos)
    simp only [availableAtElute_mCi]
    nlinarith [key]
  · intro t
    have he := Real.exp_pos (-LAMBDA_GA * ((deltaSinceLast gen t : ℤ) : ℝ))
    simp only [availableAtElute_mCi]
    nlinarith [mul_pos (hPpos t) hEpos]
  · have hfe : ∀ t : ℤ,
        parentAtTime_mCi gen t * (gen.efficiency_pct / 100) -
          (availableAtElute_mCi gen t 0).available =
        parentAtTime_mCi gen t * (gen.efficiency_pct / 100) *
          Real.exp (-LAMBDA_GA * ((deltaSinceLast gen t : ℤ) : ℝ)) := by
      intro t
      simp only [availableAtElute_mCi]
      ring
    have hsub : Filter.Tendsto (fun t : ℤ => t - gen.last_eluted_dt)
        Filter.atTop Filter.atTop := by
      simpa [sub_eq_add_neg] using
        Filter.tendsto_atTop_add_const_right Filter.atTop
          (-gen.last_eluted_dt) Filter.tendsto_id
    have hu : Filter.Tendsto (fun t : ℤ => ((t - gen.last_eluted_dt : ℤ) : ℝ))
        Filter.atTop Filter.atTop := tendsto_intCast_atTop_atTop.comp hsub
    have hlin : Filter.Tendsto
        (fun t : ℤ => -LAMBDA_GA * ((t - gen.last_eluted_dt : ℤ) : ℝ))
        Filter.atTop Filter.atBot :=
      hu.const_mul_atTop_of_neg (neg_lt_zero.mpr LAMBDA_GA_pos)
    have hexp : Filter.Tendsto
        (fun t : ℤ => Real.exp (-LAMBDA_GA * ((t - gen.last_eluted_dt : ℤ) : ℝ)))
        Filter.atTop (nhds 0) := Real.tendsto_exp_atBot.comp hlin
    have hg : Filter.Tendsto
        (fun t : ℤ => gen.activity_mCi * (gen.efficiency_pct / 100) *
          Real.exp (-LAMBDA_GA * ((t - gen.last_eluted_dt : ℤ) : ℝ)))
        Filter.atTop (nhds 0) := by
      simpa using
        hexp.const_mul (gen.activity_mCi * (gen.efficiency_pct / 100))
    refine squeeze_zero' (Filter.Eventually.of_forall fun t => ?_) ?_ hg
    · rw [hfe t]
      exact le_of_lt (mul_pos (mul_pos (hPpos t) hEpos) (Real.exp_pos _))
    · refine Filter.eventually_atTop.mpr
        ⟨max gen.calibration_dt gen.last_eluted_dt, fun t ht => ?_⟩
      rw [hfe t]
      have hdd : deltaSinceLast gen t = t - gen.last_eluted_dt := by
        simp only [deltaSinceLast]
        omega
      rw [hdd]
      simp only [parentAtTime_mCi]
      have hc : (0 : ℝ) ≤ ((t - gen.calibration_dt : ℤ) : ℝ) := by
        exact_mod_cast (by omega : (0 : ℤ) ≤ t - gen.calibration_dt)
      have he1 : Real.exp (-LAMBDA_GE * ((t - gen.calibration_dt : ℤ) : ℝ)) ≤ 1 := by
        rw [Real.exp_le_one_iff]
        have := LAMBDA_GE_pos
        nlinarith
      have h2 := Real.exp_pos (-LAMBDA_GA * ((t - gen.last_eluted_dt : ℤ) : ℝ))
      have hkey : (0 : ℝ) ≤ gen.activity_mCi * (gen.efficiency_pct / 100) *
          Real.exp (-LAMBDA_GA * ((t - gen.last_eluted_dt : ℤ) : ℝ)) *
          (1 - Real.exp (-LAMBDA_GE * ((t - gen.calibration_dt : ℤ) : ℝ))) :=
        mul_nonneg (mul_nonneg (mul_nonneg hA.le hEpos.le) h2.le) (by linarith)
      nlinarith [hkey]

/-- Witness for `availableAtElute_ingrowth_monotone` on the unit generator
at elute times 0 and 1. -/
theorem availableAtElute_ingrowth_monotone_witness :
    (0 : ℝ) < genUnit.activity_mCi ∧ (0 : ℝ) < genUnit.efficiency_pct ∧
    (availableAtElute_mCi genUnit 0 0).available * parentAtTime_mCi genUnit 1 <
      (availableAtElute_mCi genUnit 1 0).available * parentAtTime_mCi genUnit 0 := by
  refine ⟨by norm_num [genUnit], by norm_num [genUnit], ?_⟩
  exact (availableAtElute_ingrowth_monotone genUnit (by norm_num [genUnit])
    (by norm_num [genUnit])).1 0 1 (by decide) (by decide)

/-! ## Sorting lemmas for the batch-ordering contract -/

theorem perm_insertSorted {α : Type} (le : α → α → Bool) (x : α) (l : List α) :
    (insertSorted le x l).Perm (x :: l) := by
  induction l with
  | nil => exact List.Perm.refl _
  | cons y ys ih =>
    simp only [insertSorted]
    split
    · exact List.Perm.refl _
    · exact (ih.cons y).trans (List.Perm.swap x y ys)

theorem perm_insertionSort {α : Type} (le : α → α → Bool) (l : List α) :
    (insertionSort le l).Perm l := by
  induction l with
  | nil => exact List.Perm.refl _
  | cons x xs ih =>
    exact (perm_insertSorted le x (insertionSort le xs)).trans (ih.cons x)

theorem pairwise_insertSorted {α : Type} (le : α → α → Bool)
    (htot : ∀ a b, le a b = true ∨ le b a = true)
    (htrans : ∀ a b c, le a b = true → le b c = true → le a c = true)
    (x : α) (l : List α) (h : l.Pairwise (le · · = true)) :
    (insertSorted le x l).Pairwise (le · · = true) := by
  induction l with
  | nil => simp [insertSorted]
  | cons y ys ih =>
    rw [List.pairwise_cons] at h
    simp only [insertSorted]
    split
    · rename_i hxy
      rw [List.pairwise_cons]
      refine ⟨fun z hz => ?_, List.pairwise_cons.mpr h⟩
      rcases List.mem_cons.mp hz with rfl | hz'
      · exact hxy
      · exact htrans x y z hxy (h.1 z hz')
    · rename_i hxy
      rw [List.pairwise_cons]
      refine ⟨fun z hz => ?_, ih h.2⟩
      have hz2 : z ∈ x :: ys := (perm_insertSorted le x ys).mem_iff.mp hz
      rcases List.mem_cons.mp hz2 with hzx | hz'
      · rw [hzx]
        rcases htot x y with hx | hy
        · exact absurd hx (by simpa using hxy)
        · exact hy
      · exact h.1 z hz'

theorem pairwise_insertionSort {α : Type} (le : α → α → Bool)
    (htot : ∀ a b, le a b = true ∨ le b a = true)
    (htrans : ∀ a b c, le a b = true → le b c = true → le a c = true)
    (l : List α) : (insertionSort le l).Pairwise (le · · = true) := by
  induction l with
  | nil => simp [insertionSort]
  | cons x xs ih => exact pairwise_insertSorted le htot htrans x _ ih

/-! ## Per-order projection invariance of the standard policy -/

theorem coreOf_processOrderStd (L d : ℤ) (gens : List Generator) (ord : Order) :
    coreOf (processOrderStd L d gens ord).2.1 = coreOf ord := by
  simp only [processOrderStd]
  split <;> rfl

theorem assignLoopStd_core (L d : ℤ) (gens : List Generator) (l : List Order) :
    ((assignLoopStd L d gens l).2.1).map coreOf = l.map coreOf := by
  induction l generalizing gens with
  | nil => rfl
  | cons o rest ih =>
    simp only [assignLoopStd, List.map]
    rw [coreOf_processOrderStd, ih]

theorem calOf_processOrderStd (L d : ℤ) (gens : List Generator) (ord : Order) :
    calOf (processOrderStd L d gens ord).2.1 = calOf ord := by
  simp only [processOrderStd]
  split <;> rfl

theorem assignLoopStd_cal (L d : ℤ) (gens : List Generator) (l : List Order) :
    ((assignLoopStd L d gens l).2.1).map calOf = l.map calOf := by
  induction l generalizing gens with
  | nil => rfl
  | cons o rest ih =>
    simp only [assignLoopStd, List.map]
    rw [calOf_processOrderStd, ih]

/-! ## C7 — the batch is processed and returned in calibration order -/

/-- C7: for every input batch (hence every permutation of it), the standard
policy returns exactly the input orders (same input-side fields, each
processed once) arranged in ascending `calibration_dt` order — the
processing/return order within one rescan call. -/
theorem assignOrdersEfficient_sorted_by_calibration :
    ∀ (orders : List Order) (gens : List Generator) (L today : ℤ),
    ((assignOrdersEfficient orders gens L today).orders.map coreOf).Perm
      (orders.map coreOf) ∧
    List.Pairwise (fun a b : Order => a.calibration_dt ≤ b.calibration_dt)
      (assignOrdersEfficient orders gens L today).orders := by
  intro orders gens L today
  have htot : ∀ a b : Order, ordLE a b = true ∨ ordLE b a = true := by
    intro a b
    simp only [ordLE, decide_eq_true_eq]
    omega
  have htrans : ∀ a b c : Order,
      ordLE a b = true → ordLE b c = true → ordLE a c = true := by
    intro a b c
    simp only [ordLE, decide_eq_true_eq]
    omega
  have hres : (assignOrdersEfficient orders gens L today).orders =
      (assignLoopStd L today gens (insertionSort ordLE orders)).2.1 := rfl
  constructor
  · rw [hres, assignLoopStd_core]
    exact (perm_insertionSort ordLE orders).map coreOf
  · have hs : (insertionSort ordLE orders).Pairwise (ordLE · · = true) :=
      pairwise_insertionSort ordLE htot htrans orders
    have hs2 : List.Pairwise (fun a b : ℤ => a ≤ b)
        ((insertionSort ordLE orders).map calOf) := by
      rw [List.pairwise_map]
      exact hs.imp fun h => by
        simpa [ordLE, calOf, decide_eq_true_eq] using h
    have hmap : ((assignOrdersEfficient orders gens L today).orders).map calOf =
        (insertionSort ordLE orders).map calOf := by
      rw [hres, assignLoopStd_cal]
    have hfinal : List.Pairwise (fun a b : ℤ => a ≤ b)
        (((assignOrdersEfficient orders gens L today).orders).map calOf) := by
      rw [hmap]
      exact hs2
    rw [List.pairwise_map] at hfinal
    exact hfinal.imp fun h => h

/-! ## C6 — unmet orders: annotation and no generator state change -/

theorem foldl_combo_none (required : ℝ) :
    ∀ ps : List (Candidate × Candidate),
    (∀ p ∈ ps, p.1.available + p.2.available < required) →
    ps.foldl
      (fun best p =>
        let total := p.1.available + p.2.available
        if required ≤ total then
          let combo : Combo :=
            { ids := [p.1.gen.id, p.2.gen.id]
              totalAvailable := total
              deltas := [p.1.deltaSinceLastMin, p.2.deltaSinceLastMin] }
          match best with
          | none => some combo
          | some b => if b.totalAvailable < total then some combo else best
        else best)
      none = none := by
  intro ps
  induction ps with
  | nil => intro _; rfl
  | cons p ps ih =>
    intro hp
    simp only [List.foldl_cons]
    rw [if_neg (not_le.mpr (hp p (List.mem_cons_self p ps)))]
    exact ih fun q hq => hp q (List.mem_cons_of_mem p hq)

theorem bestComboSearch_eq_none (required : ℝ) (elig : List Candidate)
    (h : ∀ p ∈ pairsInOrder elig, p.1.available + p.2.available < required) :
    bestComboSearch required elig = none :=
  foldl_combo_none required (pairsInOrder elig) h

theorem selectAssignment_none (product : String) (required : ℝ)
    (elig : List Candidate)
    (hsingle : ∀ c ∈ elig, c.available < required)
    (hpair : product = "PSMA" →
      ∀ p ∈ pairsInOrder elig, p.1.available + p.2.available < required) :
    selectAssignment product required elig = ([], [], "") := by
  have hfind : elig.find? (fun c => decide (required ≤ c.available)) = none := by
    apply List.find?_eq_none.mpr
    intro c hc
    simpa using not_le.mpr (hsingle c hc)
  unfold selectAssignment
  by_cases hp : product = "PSMA"
  · rw [if_pos hp, hfind, bestComboSearch_eq_none required elig (hpair hp)]
  · rw [if_neg hp, hfind]

/-- C6: if no eligible single candidate covers the required activity and
(for PSMA) no eligible pair covers it either, the standard policy leaves
the generator working state completely unchanged and returns the order
annotated as unmet: empty `assignedGeneratorIds`, empty per-generator
deltas, the "Insufficient availability" note, and the unmet audit
message. -/
theorem processOrderStd_unmet_no_state_change :
    ∀ (L today : ℤ) (gens : List Generator) (ord : Order),
    (∀ c ∈ insertionSort candLE
        ((gens.map fun g => mkCandidate g (requiredAtElute_mCi ord).2 L).filter
          (·.eligible)),
      c.available < (requiredAtElute_mCi ord).1) →
    (ord.product = "PSMA" →
      ∀ p ∈ pairsInOrder (insertionSort candLE
          ((gens.map fun g => mkCandidate g (requiredAtElute_mCi ord).2 L).filter
            (·.eligible))),
        p.1.available + p.2.available < (requiredAtElute_mCi ord).1) →
    (processOrderStd L today gens ord).1 = gens ∧
    (processOrderStd L today gens ord).2.1.assignedGeneratorIds = some [] ∧
    (processOrderStd L today gens ord).2.1.assigned_delta_minutes = some [] ∧
    (processOrderStd L today gens ord).2.1.notes =
      some ("Insufficient availability. Required @ elute " ++
        toFixed2 (requiredAtElute_mCi ord).1 ++ " mCi.") ∧
    (processOrderStd L today gens ord).2.2 =
      "Order " ++ ord.id ++ ": unmet; insufficient availability." := by
  intro L today gens ord hsingle hpair
  have hsel : selectAssignment ord.product (requiredAtElute_mCi ord).1
      (insertionSort candLE
        ((gens.map fun g => mkCandidate g (requiredAtElute_mCi ord).2 L).filter
          (·.eligible))) = ([], [], "") :=
    selectAssignment_none _ _ _ hsingle hpair
  refine ⟨?_, ?_, ?_, ?_, ?_⟩ <;> simp [processOrderStd, hsel]

/-- Witness for `processOrderStd_unmet_no_state_change`: with an empty
generator pool every order is unmet and nothing changes. -/
theorem processOrderStd_unmet_no_state_change_witness :
    (processOrderStd 20 0 [] ordPSMA).1 = [] ∧
    (processOrderStd 20 0 [] ordPSMA).2.1.assignedGeneratorIds = some [] ∧
    (processOrderStd 20 0 [] ordPSMA).2.1.assigned_delta_minutes = some [] ∧
    (processOrderStd 20 0 [] ordPSMA).2.1.notes =
      some ("Insufficient availability. Required @ elute " ++
        toFixed2 (requiredAtElute_mCi ordPSMA).1 ++ " mCi.") ∧
    (processOrderStd 20 0 [] ordPSMA).2.2 =
      "Order " ++ ordPSMA.id ++ ": unmet; insufficient availability." := by
  exact processOrderStd_unmet_no_state_change 20 0 [] ordPSMA
    (by simp [insertionSort]) (by
      intro _ p hp
      simp [insertionSort, pairsInOrder] at hp)

/-! ## C2 — what the simulation threads between orders -/

theorem pairsInOrder_mem {α : Type} :
    ∀ (l : List α) (p : α × α), p ∈ pairsInOrder l → p.1 ∈ l ∧ p.2 ∈ l := by
  intro l
  induction l with
  | nil => simp [pairsInOrder]
  | cons x xs ih =>
    intro p hp
    simp only [pairsInOrder, List.mem_append, List.mem_map] at hp
    rcases hp with ⟨y, hy, rfl⟩ | hp'
    · exact ⟨List.mem_cons_self _ _, List.mem_cons_of_mem _ hy⟩
    · exact ⟨List.mem_cons_of_mem _ (ih p hp').1,
        List.mem_cons_of_mem _ (ih p hp').2⟩

theorem bestComboSearch_deltas (required : ℝ) (elig : List Candidate) :
    ∀ b, bestComboSearch required elig = some b →
      ∃ c1 ∈ elig, ∃ c2 ∈ elig,
        b.deltas = [c1.deltaSinceLastMin, c2.deltaSinceLastMin] := by
  have main : ∀ (ps : List (Candidate × Candidate))
      (acc : Option Combo),
      (∀ p ∈ ps, p.1 ∈ elig ∧ p.2 ∈ elig) →
      (∀ b, acc = some b → ∃ c1 ∈ elig, ∃ c2 ∈ elig,
        b.deltas = [c1.deltaSinceLastMin, c2.deltaSinceLastMin]) →
      ∀ b, ps.foldl
        (fun best p =>
          let total := p.1.available + p.2.available
          if required ≤ total then
            let combo : Combo :=
              { ids := [p.1.gen.id, p.2.gen.id]
                totalAvailable := total
                deltas := [p.1.deltaSinceLastMin, p.2.deltaSinceLastMin] }
            match best with
            | none => some combo
            | some b => if b.totalAvailable < total then some combo else best
          else best)
        acc = some b →
      ∃ c1 ∈ elig, ∃ c2 ∈ elig,
        b.deltas = [c1.deltaSinceLastMin, c2.deltaSinceLastMin] := by
    intro ps
    induction ps with
    | nil => intro acc _ hacc b hb; exact hacc b hb
    | cons p ps ih =>
      intro acc hps hacc b hb
      rw [List.foldl_cons] at hb
      refine ih _ (fun q hq => hps q (List.mem_cons_of_mem p hq)) ?_ b hb
      intro b' hb'
      have hpm := hps p (List.mem_cons_self p ps)
      dsimp only at hb'
      split at hb'
      · split at hb'
        · simp only [Option.some.injEq] at hb'
          exact ⟨p.1, hpm.1, p.2, hpm.2, by rw [← hb']⟩
        · split at hb'
          · simp only [Option.some.injEq] at hb'
            exact ⟨p.1, hpm.1, p.2, hpm.2, by rw [← hb']⟩
          · exact hacc b' hb'
      · exact hacc b' hb'
  intro b hb
  exact main (pairsInOrder elig) none
    (fun p hp => pairsInOrder_mem elig p hp) (by intro b' hb'; cases hb') b hb

theorem selectAssignment_deltas_mem (product : String) (required : ℝ)
    (elig : List Candidate) :
    ∀ d ∈ (selectAssignment product required elig).2.1,
      ∃ c ∈ elig, d = c.deltaSinceLastMin := by
  unfold selectAssignment
  by_cases hp : product = "PSMA"
  · rw [if_pos hp]
    cases hfind : elig.find? (fun c => decide (required ≤ c.available)) with
    | some s =>
      intro d hd
      dsimp only at hd
      simp only [List.mem_singleton] at hd
      exact ⟨s, List.mem_of_find?_eq_some hfind, hd⟩
    | none =>
      cases hbc : bestComboSearch required elig with
      | some b =>
        intro d hd
        dsimp only at hd
        rcases bestComboSearch_deltas required elig b hbc with
          ⟨c1, hc1, c2, hc2, hdel⟩
        rw [hdel] at hd
        rcases List.mem_cons.mp hd with rfl | hd'
        · exact ⟨c1, hc1, rfl⟩
        · rcases List.mem_singleton.mp hd' with rfl
          exact ⟨c2, hc2, rfl⟩
      | none => intro d hd; simp at hd
  · rw [if_neg hp]
    cases hfind : elig.find? (fun c => decide (required ≤ c.available)) with
    | some s =>
      intro d hd
      dsimp only at hd
      simp only [List.mem_singleton] at hd
      exact ⟨s, List.mem_of_find?_eq_some hfind, hd⟩
    | none => intro d hd; simp at hd

theorem mkCandidateSim_eligible_delta (opts : SimOptions) (used : List String)
    (g : Generator) (e : ℤ) :
    (mkCandidateSim opts used g e).eligible = true →
    (mkCandidateSim opts used g e).gen = g ∧
    (mkCandidateSim opts used g e).deltaSinceLastMin = deltaSinceLast g e := by
  intro h
  simp only [mkCandidateSim] at h ⊢
  by_cases hexp : isGeneratorExpired g e = true
  · rw [if_pos hexp] at h
    simp at h
  · rw [if_neg hexp] at h ⊢
    exact ⟨rfl, rfl⟩

theorem mkCandidateSim_gen (opts : SimOptions) (used : List String)
    (g : Generator) (e : ℤ) : (mkCandidateSim opts used g e).gen = g := by
  simp only [mkCandidateSim]
  split <;> rfl

theorem fieldsOf_processOrderSim (opts : SimOptions) (gens : List Generator)
    (used : List String) (ord : Order) :
    (processOrderSim opts gens used ord).2.1.calibration_dt = ord.calibration_dt ∧
    (processOrderSim opts gens used ord).2.1.prep_minutes = ord.prep_minutes ∧
    (processOrderSim opts gens used ord).2.1.travel_minutes = ord.travel_minutes := by
  simp only [processOrderSim]
  split <;> exact ⟨rfl, rfl, rfl⟩

theorem processOrderSim_deltas (opts : SimOptions) (gens : List Generator)
    (used : List String) (ord : Order) :
    ∀ d ∈ ((processOrderSim opts gens used ord).2.1.assigned_delta_minutes.getD []),
      ∃ g ∈ gens, d = deltaSinceLast g (requiredAtElute_mCi ord).2 := by
  intro d hd
  simp only [processOrderSim] at hd
  rw [apply_ite (fun r : List String × Order × String =>
    r.2.1.assigned_delta_minutes)] at hd
  by_cases hne : (selectAssignment ord.product (requiredAtElute_mCi ord).1
      (insertionSort candLE
        ((gens.map fun g =>
          mkCandidateSim opts used g (requiredAtElute_mCi ord).2).filter
          (·.eligible)))).1 ≠ []
  · rw [if_pos hne] at hd
    simp only [Option.getD_some] at hd
    rcases selectAssignment_deltas_mem _ _ _ d hd with ⟨c, hc, rfl⟩
    have hc2 : c ∈ (gens.map fun g =>
        mkCandidateSim opts used g (requiredAtElute_mCi ord).2).filter
        (·.eligible) :=
      (perm_insertionSort candLE _).mem_iff.mp hc
    rcases List.mem_filter.mp hc2 with ⟨hc3, helig⟩
    rcases List.mem_map.mp hc3 with ⟨g, hg, rfl⟩
    rcases mkCandidateSim_eligible_delta opts used g _ helig with ⟨hgen, hdel⟩
    exact ⟨g, hg, hdel⟩
  · rw [if_neg hne] at hd
    simp at hd

theorem assignLoopSim_deltas (opts : SimOptions) (gens : List Generator) :
    ∀ (l : List Order) (used : List String),
    ((assignLoopSim opts gens used l).2.1).Forall fun o =>
      (o.assigned_delta_minutes.getD []).Forall fun d =>
        ∃ g ∈ gens, d = deltaSinceLast g
          (o.calibration_dt - (o.prep_minutes + o.travel_minutes)) := by
  intro l
  induction l with
  | nil => intro used; simp [assignLoopSim]
  | cons o rest ih =>
    intro used
    simp only [assignLoopSim]
    rw [List.forall_cons]
    constructor
    · rw [List.forall_iff_forall_mem]
      intro d hd
      rcases processOrderSim_deltas opts gens used o d hd with ⟨g, hg, rfl⟩
      refine ⟨g, hg, ?_⟩
      have hf := fieldsOf_processOrderSim opts gens used o
      rw [hf.1, hf.2.1, hf.2.2]
      rfl
    · exact ih _

/-- C2 (amended): the simulation does NOT advance `last_eluted_dt`/wear on
its working copies; it processes every order against the fixed input
generator pool, threading only the `usedFirst` id set (which disables the
first-use-maximum override for later orders).  In particular the
per-generator elapsed minutes recorded for every assigned order are always
measured from the generator's ORIGINAL last-elution time, never from an
earlier order's elute time. -/
theorem assignOrdersEfficientSim_fixed_pool :
    ∀ (orders : List Order) (gens : List Generator) (opts : SimOptions),
    ((assignOrdersEfficientSim orders gens opts).orders).Forall fun o =>
      (o.assigned_delta_minutes.getD []).Forall fun d =>
        ∃ g ∈ gens, d = deltaSinceLast g
          (o.calibration_dt - (o.prep_minutes + o.travel_minutes)) := by
  intro orders gens opts
  exact assignLoopSim_deltas opts gens (insertionSort ordLE orders) []

/-! ## Concrete-run evaluation helpers -/

theorem mkCandidateSim_noFirst_available (opts : SimOptions) (used : List String)
    (g : Generator) (e : ℤ) (hexp : ¬ isGeneratorExpired g e = true)
    (hfu : opts.treatFirstUseMax = false) :
    (mkCandidateSim opts used g e).available =
      (availableAtElute_mCi g e
        (if opts.respectLock then opts.minLockMinutes else 0)).available := by
  simp only [mkCandidateSim]
  rw [if_neg hexp]
  simp [hfu]

theorem processOrderSim_singleGen_eval (opts : SimOptions) (used : List String)
    (ord : Order) (g : Generator)
    (hnp : ¬ ord.product = "PSMA")
    (hel : (mkCandidateSim opts used g (requiredAtElute_mCi ord).2).eligible = true)
    (hav : decide ((requiredAtElute_mCi ord).1 ≤
      (mkCandidateSim opts used g (requiredAtElute_mCi ord).2).available) = true) :
    (processOrderSim opts [g] used ord).1 =
        addUsed used (mkCandidateSim opts used g (requiredAtElute_mCi ord).2).gen.id ∧
    (processOrderSim opts [g] used ord).2.1.assignedGeneratorIds =
        some [(mkCandidateSim opts used g (requiredAtElute_mCi ord).2).gen.id] ∧
    (processOrderSim opts [g] used ord).2.1.assigned_delta_minutes =
        some [(mkCandidateSim opts used g (requiredAtElute_mCi ord).2).deltaSinceLastMin] := by
  have hfil : List.filter (fun c => c.eligible)
      [mkCandidateSim opts used g (requiredAtElute_mCi ord).2] =
      [mkCandidateSim opts used g (requiredAtElute_mCi ord).2] := by
    simp [List.filter, hel]
  have hfind : List.find?
      (fun c => decide ((requiredAtElute_mCi ord).1 ≤ c.available))
      [mkCandidateSim opts used g (requiredAtElute_mCi ord).2] =
      some (mkCandidateSim opts used g (requiredAtElute_mCi ord).2) := by
    rw [List.find?_cons, hav]
  have hsel : selectAssignment ord.product (requiredAtElute_mCi ord).1
      [mkCandidateSim opts used g (requiredAtElute_mCi ord).2] =
      ([(mkCandidateSim opts used g (requiredAtElute_mCi ord).2).gen.id],
       [(mkCandidateSim opts used g (requiredAtElute_mCi ord).2).deltaSinceLastMin],
       "Single generator " ++
         (mkCandidateSim opts used g (requiredAtElute_mCi ord).2).gen.id) := by
    unfold selectAssignment
    rw [if_neg hnp, hfind]
  refine ⟨?_, ?_, ?_⟩ <;>
    simp [processOrderSim, List.map, hfil, insertionSort, insertSorted, hsel,
      addUsed]

/-- Counterexample to C2: a two-order simulation run over a single
generator (last eluted at minute 0, lock window 0, no first-use override).
Both orders are assigned generator G1 — the first at elute minute 100 — yet
the second order's recorded elapsed-minutes is 200, i.e. measured from the
generator's original last-elution time 0.  Had the working copy's
`last_eluted_dt` been advanced to the first order's elute time 100 as the
claim states, that delta would have been `max 0 (200 - 100) = 100 ≠ 200`. -/
theorem sim_no_state_advance_cex :
    ((assignOrdersEfficientSim [ordSim1, ordSim2] [genA] optsPlain).orders).map
        (fun o => (o.assignedGeneratorIds, o.assigned_delta_minutes)) =
      [(some ["G1"], some [100]), (some ["G1"], some [200])] ∧
    deltaSinceLast { genA with last_eluted_dt := 100 } 200 ≠ 200 := by
  have hexp1 : ¬ isGeneratorExpired genA ((requiredAtElute_mCi ordSim1).2) = true := by
    decide
  have hexp2 : ¬ isGeneratorExpired genA ((requiredAtElute_mCi ordSim2).2) = true := by
    decide
  have hreq1 : (requiredAtElute_mCi ordSim1).1 = 0 := by
    simp [requiredAtElute_mCi, ordSim1]
  have hreq2 : (requiredAtElute_mCi ordSim2).1 = 0 := by
    simp [requiredAtElute_mCi, ordSim2]
  have hel1 : (mkCandidateSim optsPlain [] genA
      (requiredAtElute_mCi ordSim1).2).eligible = true := by decide
  have hel2 : (mkCandidateSim optsPlain ["G1"] genA
      (requiredAtElute_mCi ordSim2).2).eligible = true := by decide
  have hav1 : decide ((requiredAtElute_mCi ordSim1).1 ≤
      (mkCandidateSim optsPlain [] genA
        (requiredAtElute_mCi ordSim1).2).available) = true := by
    apply decide_eq_true
    rw [hreq1, mkCandidateSim_noFirst_available optsPlain [] genA _ hexp1 rfl]
    exact available_nonneg genA _ _ (by norm_num [genA]) (by norm_num [genA])
  have hav2 : decide ((requiredAtElute_mCi ordSim2).1 ≤
      (mkCandidateSim optsPlain ["G1"] genA
        (requiredAtElute_mCi ordSim2).2).available) = true := by
    apply decide_eq_true
    rw [hreq2, mkCandidateSim_noFirst_available optsPlain ["G1"] genA _ hexp2 rfl]
    exact available_nonneg genA _ _ (by norm_num [genA]) (by norm_num [genA])
  have hstep1 := processOrderSim_singleGen_eval optsPlain [] ordSim1 genA
    (by decide) hel1 hav1
  have hstep2 := processOrderSim_singleGen_eval optsPlain ["G1"] ordSim2 genA
    (by decide) hel2 hav2
  have hid1 : (mkCandidateSim optsPlain [] genA
      (requiredAtElute_mCi ordSim1).2).gen.id = "G1" := by decide
  have hid2 : (mkCandidateSim optsPlain ["G1"] genA
      (requiredAtElute_mCi ordSim2).2).gen.id = "G1" := by decide
  have hdel1 : (mkCandidateSim optsPlain [] genA
      (requiredAtElute_mCi ordSim1).2).deltaSinceLastMin = 100 := by decide
  have hdel2 : (mkCandidateSim optsPlain ["G1"] genA
      (requiredAtElute_mCi ordSim2).2).deltaSinceLastMin = 200 := by decide
  have hstate1 : (processOrderSim optsPlain [genA] [] ordSim1).1 = ["G1"] := by
    rw [hstep1.1, hid1]
    rfl
  refine ⟨?_, by decide⟩
  show ((assignLoopSim optsPlain [genA] []
      (insertionSort ordLE [ordSim1, ordSim2])).2.1).map _ = _
  rw [show insertionSort ordLE [ordSim1, ordSim2] = [ordSim1, ordSim2] from rfl]
  simp only [assignLoopSim]
  rw [hstate1]
  simp only [List.map]
  rw [hstep1.2.1, hstep1.2.2, hstep2.2.1, hstep2.2.2, hid1, hid2, hdel1, hdel2]

/-! ## C1 — the rescan's write-back drops the assignment updates -/

theorem processOrderStd_singleGen_eval (L today : ℤ) (g : Generator)
    (ord : Order)
    (hel : (mkCandidate g (requiredAtElute_mCi ord).2 L).eligible = true)
    (hav : decide ((requiredAtElute_mCi ord).1 ≤
      (mkCandidate g (requiredAtElute_mCi ord).2 L).available) = true) :
    (processOrderStd L today [g] ord).2.1.assignedGeneratorIds =
        some [(mkCandidate g (requiredAtElute_mCi ord).2 L).gen.id] ∧
    (processOrderStd L today [g] ord).2.1.assigned_elute_dt =
        some (formatLocal (requiredAtElute_mCi ord).2) := by
  have hfil : List.filter (fun c => c.eligible)
      [mkCandidate g (requiredAtElute_mCi ord).2 L] =
      [mkCandidate g (requiredAtElute_mCi ord).2 L] := by
    simp [List.filter, hel]
  have hfind : List.find?
      (fun c => decide ((requiredAtElute_mCi ord).1 ≤ c.available))
      [mkCandidate g (requiredAtElute_mCi ord).2 L] =
      some (mkCandidate g (requiredAtElute_mCi ord).2 L) := by
    rw [List.find?_cons, hav]
  have hsel : selectAssignment ord.product (requiredAtElute_mCi ord).1
      [mkCandidate g (requiredAtElute_mCi ord).2 L] =
      ([(mkCandidate g (requiredAtElute_mCi ord).2 L).gen.id],
       [(mkCandidate g (requiredAtElute_mCi ord).2 L).deltaSinceLastMin],
       "Single generator " ++
         (mkCandidate g (requiredAtElute_mCi ord).2 L).gen.id) := by
    unfold selectAssignment
    by_cases hp : ord.product = "PSMA"
    · rw [if_pos hp, hfind]
    · rw [if_neg hp, hfind]
  constructor <;>
    simp [processOrderStd, List.map, hfil, insertionSort, insertSorted, hsel]

/-- C1 fails on the code: evaluating `runRescan` at the spec's own
end-to-end scenario (one 50 mCi / 60 % generator calibrated and last eluted
at minute 0; one 5 mCi PSMA order calibrated at minute 180 with 15 + 15 min
lead; lock 20 min; current day 0).  The order IS assigned to G1 at elute
minute 150 and its required activity is strictly positive, yet the
generator list handed to the atomic write-back (`updatedById`) still holds
G1 with `last_eluted_dt = 0` (a different formatted timestamp than the
elute time) and `total_eluted_today_mCi = 0`: `assignOrdersEfficient`
mutates only inner copies it never returns, so the rescan persists
generators without the last-elution/wear updates its assignments
produced. -/
theorem runRescan_dropsAssignmentUpdates :
    ((runRescan [ordPSMA] [genA] 20 0).orders).map
        (fun o => (o.assignedGeneratorIds, o.assigned_elute_dt)) =
      [(some ["G1"], some (formatLocal 150))] ∧
    byIdLookup (runRescan [ordPSMA] [genA] 20 0).updatedById "G1" = some genA ∧
    genA.last_eluted_dt = 0 ∧
    genA.total_eluted_today_mCi = some 0 ∧
    formatLocal 150 ≠ formatLocal genA.last_eluted_dt ∧
    0 < (requiredAtElute_mCi ordPSMA).1 := by
  have hlog : (0 : ℝ) < Real.log 2 := Real.log_pos (by norm_num)
  have hexp2 : Real.exp (Real.log 2) = 2 := Real.exp_log (by norm_num)
  have hreqv : (requiredAtElute_mCi ordPSMA).1 =
      5 * Real.exp (LAMBDA_GA * 30) := by
    simp [requiredAtElute_mCi, ordPSMA]
  have h1 : Real.exp (LAMBDA_GA * 30) ≤ 2 := by
    have hle : LAMBDA_GA * 30 ≤ Real.log 2 := by
      rw [LAMBDA_GA, HALF_LIFE_GA_MIN, div_mul_eq_mul_div,
        div_le_iff₀ (by norm_num : (0 : ℝ) < 67.71)]
      nlinarith
    calc Real.exp (LAMBDA_GA * 30) ≤ Real.exp (Real.log 2) :=
          Real.exp_le_exp.mpr hle
      _ = 2 := hexp2
  have h2 : (1 / 2 : ℝ) ≤ Real.exp (-(LAMBDA_GE * 150)) := by
    have hle : LAMBDA_GE * 150 ≤ Real.log 2 := by
      rw [LAMBDA_GE, HALF_LIFE_GE_DAYS, div_mul_eq_mul_div,
        div_le_iff₀ (by norm_num : (0 : ℝ) < 270.95 * 24 * 60)]
      nlinarith
    calc (1 / 2 : ℝ) = Real.exp (-Real.log 2) := by
          rw [Real.exp_neg, hexp2]
          norm_num
      _ ≤ Real.exp (-(LAMBDA_GE * 150)) := Real.exp_le_exp.mpr (by linarith)
  have h3 : Real.exp (-(LAMBDA_GA * 150)) ≤ 1 / 4 := by
    have hle : 2 * Real.log 2 ≤ LAMBDA_GA * 150 := by
      rw [LAMBDA_GA, HALF_LIFE_GA_MIN, div_mul_eq_mul_div,
        le_div_iff₀ (by norm_num : (0 : ℝ) < 67.71)]
      nlinarith
    calc Real.exp (-(LAMBDA_GA * 150)) ≤ Real.exp (-(2 * Real.log 2)) :=
          Real.exp_le_exp.mpr (by linarith)
      _ = 1 / 4 := by
          rw [show (2 : ℝ) * Real.log 2 = Real.log 2 + Real.log 2 from by ring,
            Real.exp_neg, Real.exp_add, hexp2]
          norm_num
  have havv : (mkCandidate genA (requiredAtElute_mCi ordPSMA).2 20).available =
      50 * Real.exp (-(LAMBDA_GE * 150)) * (60 / 100) *
        (1 - Real.exp (-(LAMBDA_GA * 150))) := by
    simp [mkCandidate, availableAtElute_mCi, genA, parentAtTime_mCi,
      deltaSinceLast, ordPSMA, requiredAtElute_mCi]
  have hkey : (requiredAtElute_mCi ordPSMA).1 ≤
      (mkCandidate genA (requiredAtElute_mCi ordPSMA).2 20).available := by
    rw [hreqv, havv]
    nlinarith [h1, h2, h3, Real.exp_pos (-(LAMBDA_GE * 150)),
      Real.exp_pos (-(LAMBDA_GA * 150))]
  have hel : (mkCandidate genA (requiredAtElute_mCi ordPSMA).2 20).eligible =
      true := by decide
  have hstep := processOrderStd_singleGen_eval 20 0 genA ordPSMA hel
    (decide_eq_true hkey)
  have hid : (mkCandidate genA (requiredAtElute_mCi ordPSMA).2 20).gen.id =
      "G1" := by decide
  have he : (requiredAtElute_mCi ordPSMA).2 = 150 := by decide
  have hnorm : normalizeDailyWear [genA] 0 = [genA] := by
    simp [normalizeDailyWear, genA]
  refine ⟨?_, ?_, rfl, rfl, by decide, ?_⟩
  · show ((assignOrdersEfficient [ordPSMA] (normalizeDailyWear [genA] 0)
        20 0).orders).map _ = _
    rw [hnorm]
    show ((assignLoopStd 20 0 [genA]
        (insertionSort ordLE [ordPSMA])).2.1).map _ = _
    rw [show insertionSort ordLE [ordPSMA] = [ordPSMA] from rfl]
    simp only [assignLoopStd, List.map]
    rw [hstep.1, hstep.2, hid, he]
  · show byIdLookup (normalizeDailyWear [genA] 0) "G1" = some genA
    rw [hnorm]
    simp [byIdLookup, List.filter,
      show decide (genA.id = "G1") = true from by decide]
  · rw [hreqv]
    positivity

end Ga68
